import Mathlib

/-!
Verification of the IMAP IDLE module (`src/extensions/idle.rs`) of async-imap.

The module drives the RFC 2177 IDLE handshake: `Handle::init` sends the IDLE
command and reads frames until a continuation marker or a rejection arrives;
`Handle::wait_with_timeout` loops over a composed stream (frames raced against
a stop-token interrupt, each pull bounded by a timeout) and classifies each
frame; `Handle::done` terminates idling.  We embed the parsed-response data
model, the classifier loop, the init loop, and the `Handle` state, and prove
the spec's properties about them.
-/

namespace AsyncImap

/-- Correlation identifier of a tagged command (`imap_proto::RequestId`). -/
abbrev RequestId := String

/-- Response status tags of `imap_proto::Status` (the ones the module inspects,
plus the remaining ones collapsed faithfully: the code only pattern-matches on
`Ok` and `Bad`). -/
inductive Status where
  | Ok
  | No
  | Bad
  | PreAuth
  | Bye
deriving DecidableEq, Repr

/-- Parsed server frame (`imap_proto::Response`), restricted to the shape the
module inspects: `Data {status, information}` (untagged status response),
`Continue` (continuation marker), `Done {tag, status, information}` (tagged
completion), and all other variants collapsed into `MailboxData`/`Other`
payload carriers — the code never looks inside those, it only needs them
distinguishable as values. -/
inductive Response where
  | Data (status : Status) (information : Option String)
  | Continue (information : Option String)
  | Done (tag : RequestId) (status : Status) (information : Option String)
  | MailboxData (payload : String)
  | Other (payload : String)
deriving DecidableEq, Repr

/-- Whether a frame is a tagged completion (`Response::Done {..}`). -/
def Response.isDone : Response → Bool
  | .Done _ _ _ => true
  | _ => false

/-- Whether the wait loop's classifier returns `NewData` on this frame: the
catch-all `_` arm of the `match` in `wait_with_timeout`, i.e. the frame is
neither a positive-status `Data`, nor a `Continue`, nor a `Done`. -/
def qualifies : Response → Bool
  | .Data .Ok _ => false
  | .Continue _ => false
  | .Done _ _ _ => false
  | _ => true

/-- One result of pulling `timeout(dur, interruptible_stream.next()).await` in
the wait loop:
* `timedOut` — the outer `timeout` elapsed (`Err` from `timeout`);
* `streamEnded` — the stream yielded `None`;
* `interrupted` — the stop token fired (`Some (Err _)` from `timeout_at`);
* `transportError e` — `Some (Ok (Err e))`, an I/O error from the frame read;
* `frame r` — `Some (Ok (Ok r))`, a parsed frame. -/
inductive PullEvent where
  | timedOut
  | streamEnded
  | interrupted
  | transportError (e : String)
  | frame (r : Response)
deriving DecidableEq, Repr

/-- The `IdleResponse` enum from the source: why waiting stopped. -/
inductive IdleResponse where
  | ManualInterrupt
  | Timeout
  | NewData (r : Response)
deriving DecidableEq, Repr

/-- Result of the wait future: `Ok(IdleResponse)` or a propagated transport
error (`resp?` in the loop). -/
inductive WaitOutcome where
  | ok (r : IdleResponse)
  | err (e : String)
deriving DecidableEq, Repr

/-- The loop body of `Handle::wait_with_timeout` (lines 150–176): pull one
composed event, then
* `Err` from the outer timeout → return `Timeout`;
* `None` or `Some(Err _)` (`let Some(Ok(resp)) = res else`) → `ManualInterrupt`;
* transport error → propagate (`resp?`);
* `Data { status: Ok, .. }` / `Continue` → loop;
* `Done { .. }` → `handle_unilateral` (append to unsolicited channel), loop;
* anything else → `NewData(resp)`.
Returns the outcome, the unsolicited-channel contents, and the unconsumed
events; `none` only when the event list runs out mid-loop (the real composed
stream always eventually yields a timeout). -/
def waitLoop (unsol : List Response) : List PullEvent →
    Option (WaitOutcome × List Response × List PullEvent)
  | [] => none
  | ev :: rest =>
    match ev with
    | .timedOut => some (.ok .Timeout, unsol, rest)
    | .streamEnded => some (.ok .ManualInterrupt, unsol, rest)
    | .interrupted => some (.ok .ManualInterrupt, unsol, rest)
    | .transportError e => some (.err e, unsol, rest)
    | .frame r =>
      match r with
      | .Data .Ok _ => waitLoop unsol rest
      | .Continue _ => waitLoop unsol rest
      | .Done _ _ _ => waitLoop (unsol ++ [r]) rest
      | _ => some (.ok (.NewData r), unsol, rest)

/-- What the composed interruptible stream yields on one pull, before the
outer `timeout(dur, ..)` is applied. -/
inductive StreamEvent where
  | ended
  | interrupt
  | transportError (e : String)
  | frame (r : Response)
deriving DecidableEq, Repr

/-- Inject a stream event into a pull result. -/
def StreamEvent.toPull : StreamEvent → PullEvent
  | .ended => .streamEnded
  | .interrupt => .interrupted
  | .transportError e => .transportError e
  | .frame r => .frame r

/-- The frame carried by a stream event, if any. -/
def StreamEvent.frameOf : StreamEvent → Option Response
  | .frame r => some r
  | _ => none

/-- Timing environment of the wait loop: each stream event is tagged with the
delay (in seconds) since the previous pull began.  The outer
`timeout(dur, interruptible_stream.next())` restarts on every pull, so a pull
times out exactly when the next event's delay exceeds `dur`; when no event
ever arrives the pull times out after `dur`.  This is the composition the
source builds at lines 148–154. -/
def pullEvents (dur : Nat) : List (Nat × StreamEvent) → List PullEvent
  | [] => [.timedOut]
  | (d, ev) :: rest =>
    if dur < d then [.timedOut] else ev.toPull :: pullEvents dur rest

/-- The `Handle` struct from the source: owns the session, carries the optional pending
command identifier (the session itself is an external collaborator; the
identifier is the only Handle field the claims inspect). -/
structure Handle where
  id : Option RequestId
deriving DecidableEq, Repr

/-- Constructor `Handle::new`: identifier starts absent. -/
def Handle.new : Handle := { id := none }

/-- Result of calling an operation that may `assert!`/`unwrap`: either the
fatal programming-error signal (a panic with its message) or a normal value. -/
inductive CallResult (α : Type) where
  | panic (msg : String)
  | ok (a : α)
deriving DecidableEq, Repr

/-- Operation `Handle::wait_with_timeout` (lines 132–179): the assertion that the id is present,
with the panic message from the source, then run the classifier loop over the
timeout-bounded composed stream.  The returned stop source is created fresh
per call and does not affect the outcome value. -/
def Handle.wait_with_timeout (h : Handle) (dur : Nat)
    (evs : List (Nat × StreamEvent)) :
    CallResult (Option (WaitOutcome × List Response × List PullEvent)) :=
  if h.id.isSome then .ok (waitLoop [] (pullEvents dur evs))
  else .panic "Cannot listen to response without starting IDLE"

/-- Operation `Handle::wait` (lines 117–124): `wait_with_timeout(Duration::from_secs(24 * 60 * 60))`. -/
def Handle.wait (h : Handle) (evs : List (Nat × StreamEvent)) :
    CallResult (Option (WaitOutcome × List Response × List PullEvent)) :=
  h.wait_with_timeout (24 * 60 * 60) evs

/-- One item pulled by `init`'s `while let Some(res) = ...stream.next()`:
either an I/O error (propagated by `res?`) or a parsed frame. -/
inductive InitItem where
  | transportError (e : String)
  | frame (r : Response)
deriving DecidableEq, Repr

/-- How `Handle::init` finishes:
* `ok` — a continuation marker arrived;
* `errRefused reason` — `ConnectionRefused` error with the given text (the
  server's rejection reason, or `""` at end of stream);
* `errTransport e` — a frame read failed, propagated;
* `errCommand e` — `run_command("IDLE")` itself failed;
* `panicUnwrapNone` — the `information.as_ref().unwrap()` in the rejection
  branch hit a `None`. -/
inductive InitOutcome where
  | ok
  | errRefused (reason : String)
  | errTransport (e : String)
  | errCommand (e : String)
  | panicUnwrapNone
deriving DecidableEq, Repr

/-- The read loop of `Handle::init` (lines 185–214): for each frame,
* `Continue { .. }` → return `Ok(())`;
* `Done { tag, status, information, .. }` with `tag == id` and
  `Status::Bad` → return `ConnectionRefused(information.unwrap())` — a panic
  when `information` is `None`;
* any other `Done`, and every other frame → `handle_unilateral`, keep reading;
* end of stream → `ConnectionRefused("")`.
Returns the outcome and the unsolicited-channel contents. -/
def initLoop (id : RequestId) (unsol : List Response) :
    List InitItem → InitOutcome × List Response
  | [] => (.errRefused "", unsol)
  | .transportError e :: _ => (.errTransport e, unsol)
  | .frame r :: rest =>
    match r with
    | .Continue _ => (.ok, unsol)
    | .Done tag status info =>
      if tag = id then
        match status with
        | .Bad =>
          match info with
          | some reason => (.errRefused reason, unsol)
          | none => (.panicUnwrapNone, unsol)
        | _ => initLoop id (unsol ++ [r]) rest
      else initLoop id (unsol ++ [r]) rest
    | _ => initLoop id (unsol ++ [r]) rest

/-- Environment of one `init` call: the result of `run_command("IDLE")` (the
session collaborator) and the frames subsequently readable from the stream. -/
structure InitEnv where
  cmdResult : Except String RequestId
  items : List InitItem
deriving Repr

/-- Operation `Handle::init` (lines 182–215): run the IDLE command, store its identifier
in `self.id` (line 184, before the read loop), then run the read loop.
Returns the outcome, the unsolicited-channel contents, and the updated
handle. -/
def Handle.init (h : Handle) (env : InitEnv) :
    (InitOutcome × List Response) × Handle :=
  match env.cmdResult with
  | .error e => ((.errCommand e, []), h)
  | .ok id => (initLoop id [] env.items, { h with id := some id })

/-- Operation `Handle::done` (lines 219–231): the assertion that the id is present, with the
panic message from the source, then send the untagged `DONE` and delegate to
the session's `check_done_ok(&self.id.expect(..), ..)` — the command send and
completion check live in the session collaborator outside this module, so the
model returns the correlation identifier `done` hands to `check_done_ok`. -/
def Handle.done (h : Handle) : CallResult RequestId :=
  match h.id with
  | some id => .ok id
  | none => .panic "Cannot call DONE on a non initialized idle connection"

/-- Whether the init read loop forwards this frame to the unsolicited channel
and keeps reading (as opposed to returning on it): every frame except a
continuation marker and except a `Bad` tagged completion matching the command
identifier. -/
def initForwards (id : RequestId) : Response → Bool
  | .Continue _ => false
  | .Done tag status _ => if tag = id ∧ status = .Bad then false else true
  | _ => true

/-- C7: calling `wait`, `wait_with_timeout`, or `done` on a `Handle` whose
pending command identifier is absent raises the fatal programming-error
signal (the `assert` panic with the source's message), never a recoverable
result and never a silent pass. -/
theorem wait_done_before_init_panic (h : Handle) (dur : Nat)
    (evs evsW : List (Nat × StreamEvent)) (hnone : h.id = none) :
    h.wait_with_timeout dur evs =
      .panic "Cannot listen to response without starting IDLE" ∧
    h.wait evsW = .panic "Cannot listen to response without starting IDLE" ∧
    h.done = .panic "Cannot call DONE on a non initialized idle connection" := by
  refine ⟨?_, ?_, ?_⟩ <;>
    simp [Handle.wait_with_timeout, Handle.wait, Handle.done, hnone]

/-- Witness for C7 at the freshly constructed handle. -/
theorem wait_done_before_init_panic_witness :
    Handle.new.wait_with_timeout 5 [] =
      .panic "Cannot listen to response without starting IDLE" ∧
    Handle.new.wait [] = .panic "Cannot listen to response without starting IDLE" ∧
    Handle.new.done = .panic "Cannot call DONE on a non initialized idle connection" :=
  wait_done_before_init_panic Handle.new 5 [] [] rfl

/-- C8: `wait` is exactly `wait_with_timeout` at 24 hours = 86400 seconds:
same outcome for every handle state and timed event sequence (the interrupt
source is likewise created identically, fresh per call). -/
theorem wait_eq_wait_with_timeout_86400 (h : Handle)
    (evs : List (Nat × StreamEvent)) :
    h.wait evs = h.wait_with_timeout 86400 evs := by
  unfold Handle.wait
  norm_num

/-- C10: the rejection branch of `init` for a matching `Bad` tagged completion
unconditionally unwraps the information text: when the completion carries no
information, `init` panics instead of returning a connection-refused error. -/
theorem init_bad_without_information_panics (id : RequestId)
    (rest : List InitItem) (h : Handle) :
    (h.init ⟨.ok id, .frame (.Done id .Bad none) :: rest⟩).1.1 =
      .panicUnwrapNone := by
  simp [Handle.init, initLoop]

/-- C6: the pending command identifier is absent on a fresh handle, is set to
the IDLE command's identifier by `init` (so it is present whenever `init`
succeeds), is the value `done` hands to the session's completion correlation,
and every operation except `init` demands it be present on pain of the fatal
panic. -/
theorem pending_id_lifecycle (h hS hN : Handle) (id corrId : RequestId)
    (items : List InitItem) (dur : Nat) (evs evsW : List (Nat × StreamEvent))
    (hsome : hS.id = some corrId) (hnone : hN.id = none) :
    Handle.new.id = none ∧
    (h.init ⟨.ok id, items⟩).2.id = some id ∧
    hS.done = .ok corrId ∧
    hN.wait_with_timeout dur evs =
      .panic "Cannot listen to response without starting IDLE" ∧
    hN.wait evsW = .panic "Cannot listen to response without starting IDLE" ∧
    hN.done = .panic "Cannot call DONE on a non initialized idle connection" := by
  refine ⟨rfl, rfl, ?_, ?_, ?_, ?_⟩ <;>
    simp [Handle.done, Handle.wait, Handle.wait_with_timeout, hsome, hnone]

/-- Witness for C6 at concrete handles. -/
theorem pending_id_lifecycle_witness :
    Handle.new.id = none ∧
    (Handle.new.init ⟨.ok "a2", []⟩).2.id = some "a2" ∧
    Handle.done ⟨some "a1"⟩ = .ok "a1" ∧
    Handle.wait_with_timeout ⟨none⟩ 5 [] =
      .panic "Cannot listen to response without starting IDLE" ∧
    Handle.wait ⟨none⟩ [] =
      .panic "Cannot listen to response without starting IDLE" ∧
    Handle.done ⟨none⟩ =
      .panic "Cannot call DONE on a non initialized idle connection" :=
  pending_id_lifecycle Handle.new ⟨some "a1"⟩ ⟨none⟩ "a2" "a1" [] 5 [] [] rfl rfl

/-- Counterexample for C2: a tagged completion for this command with the
negative status `No` does not produce the connection-refused error carrying
the server's reason; the code only treats `Bad` as rejection, so the `No`
completion is forwarded to the unsolicited channel, reading continues, and
the stream's end yields a connection-refused error with an empty reason. -/
theorem init_no_status_counterexample :
    (Handle.new.init
        ⟨.ok "a1", [.frame (.Done "a1" .No (some "denied"))]⟩).1 =
      (.errRefused "", [.Done "a1" .No (some "denied")]) ∧
    InitOutcome.errRefused "" ≠ InitOutcome.errRefused "denied" := by
  refine ⟨by decide, by decide⟩

/-- C2 as amended: `init` returns `Ok` as soon as a continuation marker
arrives; it returns a connection-refused error carrying the server's reason
when a tagged completion matching this command's identifier arrives with
status `Bad` (and an information text); it returns a connection-refused error
with an empty reason when the stream ends; every other frame — including
tagged completions with status `No` or with a different tag — is forwarded to
the unsolicited channel and reading continues. -/
theorem init_amended (id : RequestId) (u0 : List Response)
    (rest : List InitItem) (info : Option String) (reason : String)
    (r : Response) (hr : initForwards id r = true) :
    initLoop id u0 (.frame (.Continue info) :: rest) = (.ok, u0) ∧
    initLoop id u0 (.frame (.Done id .Bad (some reason)) :: rest) =
      (.errRefused reason, u0) ∧
    initLoop id u0 [] = (.errRefused "", u0) ∧
    initLoop id u0 (.frame r :: rest) = initLoop id (u0 ++ [r]) rest := by
  refine ⟨by simp [initLoop], by simp [initLoop], rfl, ?_⟩
  cases r with
  | Data s i => simp [initLoop]
  | Continue i => simp [initForwards] at hr
  | Done tag status i =>
    by_cases htag : tag = id
    · subst htag
      cases status <;> simp_all [initForwards, initLoop]
    · simp [initLoop, htag]
  | MailboxData p => simp [initLoop]
  | Other p => simp [initLoop]

/-- Helper: the wait loop walks over any prefix of non-qualifying frames,
appending exactly its tagged completions to the unsolicited channel. -/
theorem waitLoop_skips_nonqualifying (pre : List Response)
    (hpre : ∀ r ∈ pre, qualifies r = false) (unsol : List Response)
    (rest : List PullEvent) :
    waitLoop unsol (pre.map .frame ++ rest) =
      waitLoop (unsol ++ pre.filter Response.isDone) rest := by
  induction pre generalizing unsol with
  | nil => simp
  | cons r pre ih =>
    have hr : qualifies r = false := hpre r (List.mem_cons_self r pre)
    have hpre' : ∀ x ∈ pre, qualifies x = false := fun x hx =>
      hpre x (List.mem_cons_of_mem r hx)
    cases r with
    | Data s i =>
      cases s with
      | Ok => simpa [waitLoop, Response.isDone] using ih hpre' unsol
      | No => simp [qualifies] at hr
      | Bad => simp [qualifies] at hr
      | PreAuth => simp [qualifies] at hr
      | Bye => simp [qualifies] at hr
    | Continue i => simpa [waitLoop, Response.isDone] using ih hpre' unsol
    | Done tag s i =>
      have := ih hpre' (unsol ++ [Response.Done tag s i])
      simpa [waitLoop, Response.isDone, List.filter_cons, List.append_assoc]
        using this
    | MailboxData p => simp [qualifies] at hr
    | Other p => simp [qualifies] at hr

/-- Helper: a `NewData` outcome of the wait loop never carries a tagged
completion. -/
theorem waitLoop_newData_not_done (unsol : List Response)
    (evs : List PullEvent) (r : Response) (u : List Response)
    (rem : List PullEvent)
    (h : waitLoop unsol evs = some (.ok (.NewData r), u, rem)) :
    r.isDone = false := by
  induction evs generalizing unsol with
  | nil => simp [waitLoop] at h
  | cons ev rest ih =>
    cases ev with
    | timedOut => simp [waitLoop] at h
    | streamEnded => simp [waitLoop] at h
    | interrupted => simp [waitLoop] at h
    | transportError e => simp [waitLoop] at h
    | frame fr =>
      cases fr with
      | Data s i =>
        cases s with
        | Ok => exact ih unsol h
        | No =>
          simp only [waitLoop, Option.some.injEq, Prod.mk.injEq,
            WaitOutcome.ok.injEq, IdleResponse.NewData.injEq] at h
          obtain ⟨h1, -, -⟩ := h
          subst h1
          rfl
        | Bad =>
          simp only [waitLoop, Option.some.injEq, Prod.mk.injEq,
            WaitOutcome.ok.injEq, IdleResponse.NewData.injEq] at h
          obtain ⟨h1, -, -⟩ := h
          subst h1
          rfl
        | PreAuth =>
          simp only [waitLoop, Option.some.injEq, Prod.mk.injEq,
            WaitOutcome.ok.injEq, IdleResponse.NewData.injEq] at h
          obtain ⟨h1, -, -⟩ := h
          subst h1
          rfl
        | Bye =>
          simp only [waitLoop, Option.some.injEq, Prod.mk.injEq,
            WaitOutcome.ok.injEq, IdleResponse.NewData.injEq] at h
          obtain ⟨h1, -, -⟩ := h
          subst h1
          rfl
      | Continue i => exact ih unsol h
      | Done tag s i => exact ih (unsol ++ [Response.Done tag s i]) h
      | MailboxData p =>
        simp only [waitLoop, Option.some.injEq, Prod.mk.injEq,
          WaitOutcome.ok.injEq, IdleResponse.NewData.injEq] at h
        obtain ⟨h1, -, -⟩ := h
        subst h1
        rfl
      | Other p =>
        simp only [waitLoop, Option.some.injEq, Prod.mk.injEq,
          WaitOutcome.ok.injEq, IdleResponse.NewData.injEq] at h
        obtain ⟨h1, -, -⟩ := h
        subst h1
        rfl

/-- C1: a tagged completion frame is never the frame inside a `NewData`
outcome of the wait loop; when the loop meets one it forwards it to the
unsolicited channel and continues pulling the remaining events. -/
theorem done_frame_never_newData (unsol uD : List Response)
    (evs rest rem : List PullEvent) (r : Response) (u : List Response)
    (tag : RequestId) (s : Status) (i : Option String)
    (h : waitLoop unsol evs = some (.ok (.NewData r), u, rem)) :
    r.isDone = false ∧
    waitLoop uD (.frame (.Done tag s i) :: rest) =
      waitLoop (uD ++ [.Done tag s i]) rest :=
  ⟨waitLoop_newData_not_done unsol evs r u rem h, rfl⟩

/-- Witness for C1 on the scenario stream ending in a mailbox-status frame. -/
theorem done_frame_never_newData_witness :
    waitLoop [] [.frame (.MailboxData "EXISTS 4")] =
      some (.ok (.NewData (.MailboxData "EXISTS 4")), [], []) ∧
    ((Response.MailboxData "EXISTS 4").isDone = false ∧
      waitLoop [] [.frame (.Done "a1" .Ok none), .timedOut] =
        waitLoop [.Done "a1" .Ok none] [.timedOut]) :=
  ⟨rfl,
    done_frame_never_newData [] [] [.frame (.MailboxData "EXISTS 4")]
      [.timedOut] [] (.MailboxData "EXISTS 4") [] "a1" .Ok none rfl⟩

/-- C3: on a stream of frames containing a qualifying frame (one that is
neither a positive-status data frame, nor a continuation marker, nor a tagged
completion), the wait loop returns `NewData` carrying exactly the first such
frame and leaves every later event unconsumed. -/
theorem wait_returns_first_qualifying (rs : List Response)
    (unsol : List Response) (hq : ∃ r ∈ rs, qualifies r = true) :
    ∃ pre r post,
      rs = pre ++ r :: post ∧
      (∀ x ∈ pre, qualifies x = false) ∧ qualifies r = true ∧
      waitLoop unsol (rs.map .frame) =
        some (.ok (.NewData r), unsol ++ pre.filter Response.isDone,
          post.map .frame) := by
  induction rs generalizing unsol with
  | nil => simp at hq
  | cons r rs ih =>
    by_cases hr : qualifies r = true
    · refine ⟨[], r, rs, by simp, by simp, hr, ?_⟩
      cases r with
      | Data s i =>
        cases s with
        | Ok => simp [qualifies] at hr
        | No => simp [waitLoop]
        | Bad => simp [waitLoop]
        | PreAuth => simp [waitLoop]
        | Bye => simp [waitLoop]
      | Continue i => simp [qualifies] at hr
      | Done tag s i => simp [qualifies] at hr
      | MailboxData p => simp [waitLoop]
      | Other p => simp [waitLoop]
    · have hrf : qualifies r = false := by
        cases hq' : qualifies r
        · rfl
        · exact absurd hq' hr
      have hq2 : ∃ x ∈ rs, qualifies x = true := by
        obtain ⟨x, hx, hxq⟩ := hq
        cases List.mem_cons.mp hx with
        | inl heq => exact absurd (heq ▸ hxq) hr
        | inr hmem => exact ⟨x, hmem, hxq⟩
      obtain ⟨pre, x, post, hdecomp, hpre, hxq, hloop⟩ :=
        ih (unsol ++ List.filter Response.isDone [r]) hq2
      refine ⟨r :: pre, x, post, by simp [hdecomp], ?_, hxq, ?_⟩
      · intro y hy
        cases List.mem_cons.mp hy with
        | inl heq => exact heq ▸ hrf
        | inr hmem => exact hpre y hmem
      · have hstep :
          waitLoop unsol (List.map PullEvent.frame (r :: rs)) =
            waitLoop (unsol ++ List.filter Response.isDone [r])
              (List.map PullEvent.frame rs) := by
          have := waitLoop_skips_nonqualifying [r]
            (by intro z hz; simp at hz; exact hz ▸ hrf) unsol
            (List.map PullEvent.frame rs)
          simpa using this
        rw [hstep, hloop]
        have hfil : List.filter Response.isDone [r] ++
            List.filter Response.isDone pre =
            List.filter Response.isDone (r :: pre) := by
          cases hdone : r.isDone <;> simp [List.filter_cons, hdone]
        rw [List.append_assoc, hfil]

/-- Witness for C3 on the spec scenario: two keepalives then `EXISTS 4`. -/
theorem wait_returns_first_qualifying_witness :
    (∃ r ∈ [Response.Data .Ok (some "Still here"),
        Response.Data .Ok (some "Still here"),
        Response.MailboxData "EXISTS 4"], qualifies r = true) ∧
    (∃ pre r post,
      [Response.Data .Ok (some "Still here"),
        Response.Data .Ok (some "Still here"),
        Response.MailboxData "EXISTS 4"] = pre ++ r :: post ∧
      (∀ x ∈ pre, qualifies x = false) ∧ qualifies r = true ∧
      waitLoop []
          (List.map PullEvent.frame
            [Response.Data .Ok (some "Still here"),
              Response.Data .Ok (some "Still here"),
              Response.MailboxData "EXISTS 4"]) =
        some (.ok (.NewData r), [] ++ pre.filter Response.isDone,
          post.map .frame)) :=
  ⟨by decide,
    wait_returns_first_qualifying
      [Response.Data .Ok (some "Still here"),
        Response.Data .Ok (some "Still here"),
        Response.MailboxData "EXISTS 4"] [] (by decide)⟩

/-- C4: when the interrupt fires before any qualifying frame, the wait loop
returns `ManualInterrupt` and consumes nothing past the interruption. -/
theorem wait_interrupt_manual (pre : List Response) (rest : List PullEvent)
    (unsol : List Response) (hpre : ∀ r ∈ pre, qualifies r = false) :
    waitLoop unsol (pre.map .frame ++ .interrupted :: rest) =
      some (.ok .ManualInterrupt, unsol ++ pre.filter Response.isDone,
        rest) := by
  rw [waitLoop_skips_nonqualifying pre hpre]
  rfl

/-- Witness for C4 after one keepalive. -/
theorem wait_interrupt_manual_witness :
    (∀ r ∈ [Response.Data .Ok (some "Still here")], qualifies r = false) ∧
    waitLoop []
        (List.map PullEvent.frame [Response.Data .Ok (some "Still here")] ++
          .interrupted :: [.frame (.MailboxData "EXISTS 4")]) =
      some (.ok .ManualInterrupt,
        [] ++ List.filter Response.isDone [Response.Data .Ok (some "Still here")],
        [.frame (.MailboxData "EXISTS 4")]) :=
  ⟨by decide,
    wait_interrupt_manual [Response.Data .Ok (some "Still here")]
      [.frame (.MailboxData "EXISTS 4")] [] (by decide)⟩

/-- C9: when the underlying stream ends before any qualifying frame,
interrupt, or timeout, the wait loop returns `ManualInterrupt` — exactly the
same result as a caller-triggered interrupt at that point, not a transport
error and not `Timeout`. -/
theorem wait_stream_end_manual_interrupt (pre : List Response)
    (rest : List PullEvent) (unsol : List Response)
    (hpre : ∀ r ∈ pre, qualifies r = false) :
    waitLoop unsol (pre.map .frame ++ .streamEnded :: rest) =
      some (.ok .ManualInterrupt, unsol ++ pre.filter Response.isDone,
        rest) ∧
    waitLoop unsol (pre.map .frame ++ .streamEnded :: rest) =
      waitLoop unsol (pre.map .frame ++ .interrupted :: rest) := by
  rw [waitLoop_skips_nonqualifying pre hpre,
    waitLoop_skips_nonqualifying pre hpre]
  exact ⟨rfl, rfl⟩

/-- Witness for C9 after one keepalive. -/
theorem wait_stream_end_manual_interrupt_witness :
    (∀ r ∈ [Response.Data .Ok (some "Still here")], qualifies r = false) ∧
    (waitLoop []
          (List.map PullEvent.frame [Response.Data .Ok (some "Still here")] ++
            .streamEnded :: []) =
        some (.ok .ManualInterrupt,
          [] ++
            List.filter Response.isDone [Response.Data .Ok (some "Still here")],
          []) ∧
      waitLoop []
          (List.map PullEvent.frame [Response.Data .Ok (some "Still here")] ++
            .streamEnded :: []) =
        waitLoop []
          (List.map PullEvent.frame [Response.Data .Ok (some "Still here")] ++
            .interrupted :: [])) :=
  ⟨by decide,
    wait_stream_end_manual_interrupt [Response.Data .Ok (some "Still here")]
      [] [] (by decide)⟩

/-- Helper: pulling through timely (delay ≤ dur) non-qualifying frames never
times out; the loop walks them all and then behaves as on the remaining timed
events, with the tagged completions forwarded. -/
theorem waitLoop_pullEvents_timely (dur : Nat) (rs : List (Nat × Response))
    (unsol : List Response) (l : List (Nat × StreamEvent))
    (hq : ∀ p ∈ rs, p.1 ≤ dur ∧ qualifies p.2 = false)
    (hl : ∀ u, waitLoop u (pullEvents dur l) = some (.ok .Timeout, u, [])) :
    waitLoop unsol
        (pullEvents dur ((rs.map fun p => (p.1, .frame p.2)) ++ l)) =
      some (.ok .Timeout,
        unsol ++ (rs.map Prod.snd).filter Response.isDone, []) := by
  induction rs generalizing unsol with
  | nil => simpa using hl unsol
  | cons p rs ih =>
    obtain ⟨hd, hqp⟩ := hq p (List.mem_cons_self p rs)
    have hq' : ∀ x ∈ rs, x.1 ≤ dur ∧ qualifies x.2 = false := fun x hx =>
      hq x (List.mem_cons_of_mem p hx)
    have hnd : ¬dur < p.1 := Nat.not_lt.mpr hd
    obtain ⟨d, r⟩ := p
    simp only [List.map_cons, List.cons_append, pullEvents, hnd, if_false]
    cases r with
    | Data s i =>
      cases s with
      | Ok =>
        simpa [StreamEvent.toPull, waitLoop, Response.isDone]
          using ih unsol hq'
      | No => simp [qualifies] at hqp
      | Bad => simp [qualifies] at hqp
      | PreAuth => simp [qualifies] at hqp
      | Bye => simp [qualifies] at hqp
    | Continue i =>
      simpa [StreamEvent.toPull, waitLoop, Response.isDone] using ih unsol hq'
    | Done tag s i =>
      have := ih (unsol ++ [Response.Done tag s i]) hq'
      simpa [StreamEvent.toPull, waitLoop, Response.isDone, List.filter_cons,
        List.append_assoc] using this
    | MailboxData q => simp [qualifies] at hqp
    | Other q => simp [qualifies] at hqp

/-- C5: with only non-qualifying frames each arriving within `dur` of the
previous pull, the wait loop ends in `Timeout` once no further frame arrives
in time — every frame, keepalives included, resets the per-pull deadline, so
this holds however large the total elapsed time is; and a gap exceeding `dur`
after any such timely prefix yields `Timeout` there and then, because the
deadline is applied to each individual pull, not to the whole call. -/
theorem wait_timeout_per_pull (dur : Nat) (rs : List (Nat × Response))
    (unsol : List Response) (d : Nat) (ev : StreamEvent)
    (rest : List (Nat × StreamEvent))
    (hq : ∀ p ∈ rs, p.1 ≤ dur ∧ qualifies p.2 = false) (hd : dur < d) :
    waitLoop unsol (pullEvents dur (rs.map fun p => (p.1, .frame p.2))) =
      some (.ok .Timeout,
        unsol ++ (rs.map Prod.snd).filter Response.isDone, []) ∧
    waitLoop unsol
        (pullEvents dur
          ((rs.map fun p => (p.1, .frame p.2)) ++ (d, ev) :: rest)) =
      some (.ok .Timeout,
        unsol ++ (rs.map Prod.snd).filter Response.isDone, []) := by
  constructor
  · have := waitLoop_pullEvents_timely dur rs unsol [] hq
      (fun u => rfl)
    simpa using this
  · exact waitLoop_pullEvents_timely dur rs unsol ((d, ev) :: rest) hq
      (fun u => by simp [pullEvents, hd, waitLoop])

/-- Witness for C5: two keepalives, each 50 time units apart with a 60-unit
deadline (total elapsed 100 exceeds the deadline yet no timeout fires until
the stream goes quiet), and a late third event at 61 units. -/
theorem wait_timeout_per_pull_witness :
    (∀ p ∈ [(50, Response.Data .Ok (some "Still here")),
        (50, Response.Data .Ok (some "Still here"))],
      p.1 ≤ 60 ∧ qualifies p.2 = false) ∧ 60 < 61 ∧
    (waitLoop []
        (pullEvents 60
          (List.map (fun p => (p.1, .frame p.2))
            [(50, Response.Data .Ok (some "Still here")),
              (50, Response.Data .Ok (some "Still here"))])) =
      some (.ok .Timeout,
        [] ++ (List.map Prod.snd
            [(50, Response.Data .Ok (some "Still here")),
              (50, Response.Data .Ok (some "Still here"))]).filter
          Response.isDone, []) ∧
    waitLoop []
        (pullEvents 60
          ((List.map (fun p => (p.1, .frame p.2))
            [(50, Response.Data .Ok (some "Still here")),
              (50, Response.Data .Ok (some "Still here"))]) ++
            (61, .frame (.MailboxData "EXISTS 4")) :: [])) =
      some (.ok .Timeout,
        [] ++ (List.map Prod.snd
            [(50, Response.Data .Ok (some "Still here")),
              (50, Response.Data .Ok (some "Still here"))]).filter
          Response.isDone, [])) :=
  ⟨by decide, by decide,
    wait_timeout_per_pull 60
      [(50, Response.Data .Ok (some "Still here")),
        (50, Response.Data .Ok (some "Still here"))] [] 61
      (.frame (.MailboxData "EXISTS 4")) [] (by decide) (by decide)⟩

/-- Witness for C2's amended theorem at concrete inputs. -/
theorem init_amended_witness :
    initForwards "a0" (.MailboxData "EXISTS 4") = true ∧
    (initLoop "a0" [] [.frame (.Continue none)] = (.ok, []) ∧
      initLoop "a0" [] [.frame (.Done "a0" .Bad (some "no idle"))] =
        (.errRefused "no idle", []) ∧
      initLoop "a0" [] [] = (.errRefused "", []) ∧
      initLoop "a0" [] [.frame (.MailboxData "EXISTS 4")] =
        initLoop "a0" [.MailboxData "EXISTS 4"] []) :=
  ⟨by decide,
    init_amended "a0" [] [] none "no idle" (.MailboxData "EXISTS 4") (by decide)⟩

end AsyncImap
